import Mathlib

/-!
Verification of the fleet model-lifecycle orchestrator of the
Vibration-Motor-Monitoring repository.

The four cooperating services are shallowly embedded from the Python
sources under `src/cloud/services/`:

* `data_collector.py`       → `VMM.receive_sample`, `VMM.set_label`, `VMM.get_stats_summary`
* `labeling_service.py`     → `VMM.get_next_task`, `VMM.submit_label`, `VMM.skip_task`, `VMM.dispute_label`
* `deployment_manager.py`   → `VMM.register_model`, `VMM.deploy_model`, `VMM.report_device_status`, `VMM.rollback`
* `retraining_orchestrator.py` → `VMM.should_retrain`, `VMM.trigger_retraining`

Python dictionaries (which preserve insertion order) are embedded as
association lists; `datetime.now()` values are passed in explicitly as
natural-number clock parameters; Python float arithmetic is embedded over
the rationals; externally injected capabilities (sha256 hashing, the
device-notification callback, the model trainer) are passed as explicit
parameters or flags.
-/

namespace VMM

/-! ### Association lists: Python `dict` semantics (insertion order kept) -/

/-- First value bound to key `k`, like Python `d[k]` / `d.get(k)`. -/
def alookup [DecidableEq κ] (k : κ) : List (κ × α) → Option α
  | [] => none
  | (k₁, v₁) :: t => if k₁ = k then some v₁ else alookup k t

/-- Python `d[k] = v`: replace in place if the key is present, else append. -/
def aput [DecidableEq κ] (k : κ) (v : α) : List (κ × α) → List (κ × α)
  | [] => [(k, v)]
  | (k₁, v₁) :: t => if k₁ = k then (k₁, v) :: t else (k₁, v₁) :: aput k v t

/-- Mutate the value stored at key `k` in place, if present. -/
def aupd [DecidableEq κ] (k : κ) (f : α → α) : List (κ × α) → List (κ × α)
  | [] => []
  | (k₁, v₁) :: t => if k₁ = k then (k₁, f v₁) :: t else (k₁, v₁) :: aupd k f t

/-- Python `d.keys()`. -/
def akeys (l : List (κ × α)) : List κ := l.map Prod.fst

/-- Python `d.values()`. -/
def avals (l : List (κ × α)) : List α := l.map Prod.snd

/-- Python truthiness of an optional string (`None` and `""` are falsy). -/
def optTruthy : Option String → Bool
  | none => false
  | some s => s ≠ ""

/-! ### DataCollector (`src/cloud/services/data_collector.py`) -/

/-- `TrainingSample` dataclass. -/
structure TrainingSample where
  device_id : String
  features : List ℚ
  predicted_label : Int
  confidence : ℚ
  label_source : Int
  timestamp : Int
  received_at : Nat
  true_label : Option Int
  sample_id : Option Nat
  deriving DecidableEq, Repr

/-- A JSON-ish sample envelope as received by `receive_sample`: every field
may be absent, exactly as a Python dict read with `.get`. -/
structure Envelope where
  device_id : Option String := none
  features : Option (List ℚ) := none
  predicted_label : Option Int := none
  confidence : Option ℚ := none
  label_source : Option Int := none
  timestamp : Option Int := none
  true_label : Option Int := none
  sample_id : Option Nat := none
  deriving DecidableEq, Repr

/-- `TrainingSample.from_dict`: every missing field is defaulted
(`device_id` → `''`, `features` → `[]`, ...); `received_at` is stamped with
the current clock. -/
def TrainingSample.from_dict (data : Envelope) (now : Nat) : TrainingSample :=
  { device_id := data.device_id.getD ""
    features := data.features.getD []
    predicted_label := data.predicted_label.getD 0
    confidence := data.confidence.getD 0
    label_source := data.label_source.getD 0
    timestamp := data.timestamp.getD 0
    received_at := now
    true_label := data.true_label
    sample_id := data.sample_id }

/-- One row of the `samples` table. -/
structure SampleRow where
  device_id : String
  features : List ℚ
  predicted_label : Int
  confidence : ℚ
  label_source : Int
  timestamp : Int
  received_at : Nat
  true_label : Option Int
  used_for_training : Bool
  deriving DecidableEq, Repr

/-- One row of the `devices` table. -/
structure DeviceRow where
  total_samples : Nat
  labeled_samples : Nat
  last_seen : Nat
  model_version : Option String
  deriving DecidableEq, Repr

/-- The durable store: the `samples` table keyed by rowid and the `devices`
table keyed by device id. -/
structure CollectorDB where
  samples : List (Nat × SampleRow)
  devices : List (String × DeviceRow)
  deriving DecidableEq, Repr

/-- The ingestion-side state of `DataCollector`: the `sample_queue` feeding
the background flush worker. -/
structure CollectorState where
  sample_queue : List TrainingSample
  deriving DecidableEq, Repr

/-- `DataCollector.receive_sample`: build the sample via `from_dict`
(which never fails on a dict input — every field is defaulted), put it on
`sample_queue`, and return `True`.  The exception branch of the source is
reachable only for a non-dict payload, which cannot be expressed in the
typed envelope. -/
def receive_sample (sample_data : Envelope) (now : Nat) (s : CollectorState) :
    Bool × CollectorState :=
  let sample := TrainingSample.from_dict sample_data now
  (true, { s with sample_queue := s.sample_queue ++ [sample] })

/-- `UPDATE samples SET true_label = ? WHERE id = ?`. -/
def sqlUpdateSamples (sid : Nat) (label : Int) (samples : List (Nat × SampleRow)) :
    List (Nat × SampleRow) :=
  samples.map (fun kv =>
    if kv.1 = sid then (kv.1, { kv.2 with true_label := some label }) else kv)

/-- `UPDATE devices SET labeled_samples = labeled_samples + 1 WHERE
device_id = (SELECT ...)`: a NULL subquery result matches no device. -/
def sqlBumpOwner (owner : Option String) (devices : List (String × DeviceRow)) :
    List (String × DeviceRow) :=
  devices.map (fun kv =>
    match owner with
    | some d =>
        if kv.1 = d then
          (kv.1, { kv.2 with labeled_samples := kv.2.labeled_samples + 1 })
        else kv
    | none => kv)

/-- `DataCollector.set_label`: `UPDATE samples SET true_label = ? WHERE id = ?`,
then unconditionally `UPDATE devices SET labeled_samples = labeled_samples + 1
WHERE device_id = (SELECT device_id FROM samples WHERE id = ?)`, commit, and
return `True`. -/
def set_label (sid : Nat) (label : Int) (db : CollectorDB) : Bool × CollectorDB :=
  let samples2 := sqlUpdateSamples sid label db.samples
  let owner : Option String := (alookup sid samples2).map (fun r => r.device_id)
  (true, { db with samples := samples2, devices := sqlBumpOwner owner db.devices })

/-- The dict returned by `DataCollector.get_stats_summary` (the fields
`should_retrain` reads, plus the derived rate). -/
structure StatsSummary where
  total_samples : Nat
  labeled_samples : Nat
  unlabeled_samples : Nat
  total_devices : Nat
  used_for_training : Nat
  labeling_rate : ℚ
  deriving DecidableEq, Repr

/-- `DataCollector.get_stats_summary`: SQL `COUNT` aggregates over the
`samples` and `devices` tables; `labeling_rate` is `labeled / total`
(`0` when the table is empty). -/
def get_stats_summary (db : CollectorDB) : StatsSummary :=
  let total := db.samples.length
  let labeled := (db.samples.filter (fun kv => kv.2.true_label.isSome)).length
  let used := (db.samples.filter (fun kv => kv.2.used_for_training)).length
  { total_samples := total
    labeled_samples := labeled
    unlabeled_samples := total - labeled
    total_devices := ((akeys db.devices).dedup).length
    used_for_training := used
    labeling_rate := if total > 0 then (labeled : ℚ) / (total : ℚ) else 0 }

/-! ### LabelingService (`src/cloud/services/labeling_service.py`) -/

/-- `LabelingPriority` enum. -/
inductive LabelingPriority
  | LOW | MEDIUM | HIGH | URGENT
  deriving DecidableEq, Repr

/-- The `.value` of a `LabelingPriority` member. -/
def LabelingPriority.val : LabelingPriority → Nat
  | .LOW => 1
  | .MEDIUM => 2
  | .HIGH => 3
  | .URGENT => 4

/-- `LabelingStatus` enum. -/
inductive LabelingStatus
  | PENDING | IN_PROGRESS | LABELED | SKIPPED | DISPUTED
  deriving DecidableEq, Repr

/-- `LabelingTask` dataclass. -/
structure LabelingTask where
  task_id : Nat
  sample_id : Nat
  device_id : String
  features : List ℚ
  predicted_label : Int
  confidence : ℚ
  priority : LabelingPriority
  status : LabelingStatus
  created_at : Nat
  assigned_to : Option String := none
  assigned_at : Option Nat := none
  completed_at : Option Nat := none
  assigned_label : Option Int := none
  labeler_confidence : ℚ := 1
  notes : String := ""
  deriving DecidableEq, Repr

/-- A per-labeler running-statistics record (`defaultdict` default is all
zeroes). -/
structure LabelerStats where
  completed : Nat := 0
  avg_time : ℚ := 0
  agreement : ℚ := 0
  deriving DecidableEq, Repr

/-- `LabelingService` state: `tasks` dict, task counter, per-labeler stats,
and the optional wired `data_collector` (only its durable store is reached
from here, via `set_label`). -/
structure LState where
  tasks : List (Nat × LabelingTask)
  task_counter : Nat := 0
  labeler_stats : List (String × LabelerStats) := []
  collector : Option CollectorDB := none
  deriving DecidableEq, Repr

/-- Strict comparison of the sort key `(-priority.value, created_at)` used by
`get_next_task`: `beats u v` holds when `u` sorts strictly before `v`. -/
def beats (u v : LabelingTask) : Bool :=
  decide (v.priority.val < u.priority.val) ||
    (decide (u.priority.val = v.priority.val) && decide (u.created_at < v.created_at))

/-- Head of the stable sort by `(-priority.value, created_at)`: the first
element (in list order) whose key no later element strictly improves on.
This is exactly `sorted(pending, key)[0]` for Python's stable sort. -/
def selectNext (l : List LabelingTask) : Option LabelingTask :=
  l.foldl
    (fun acc t =>
      match acc with
      | none => some t
      | some b => if beats t b then some t else some b)
    none

/-- The PENDING tasks, in `tasks.values()` (insertion) order. -/
def pendings (s : LState) : List LabelingTask :=
  (avals s.tasks).filter (fun t => t.status = LabelingStatus.PENDING)

/-- `LabelingService.get_next_task`: select the best PENDING task; if a
truthy `labeler_id` was supplied, claim it (assignee, timestamp, status
IN_PROGRESS) in place.  Returns the (possibly claimed) task's data and the
new service state. -/
def get_next_task (labeler_id : Option String) (now : Nat) (s : LState) :
    Option LabelingTask × LState :=
  match selectNext (pendings s) with
  | none => (none, s)
  | some t =>
      if optTruthy labeler_id then
        let t2 := { t with assigned_to := labeler_id, assigned_at := some now,
                           status := LabelingStatus.IN_PROGRESS }
        (some t2, { s with tasks := aupd t.task_id (fun _ => t2) s.tasks })
      else
        (some t, s)

/-- `LabelingService._update_labeler_stats`: bump the completion count and
fold the labeling latency and model-agreement observation into the running
means. -/
def update_labeler_stats (t : LabelingTask) (s : LState) : LState :=
  let labeler := t.assigned_to.getD ""
  let st := (alookup labeler s.labeler_stats).getD {}
  let n : Nat := st.completed + 1
  let st1 : LabelerStats :=
    match t.assigned_at, t.completed_at with
    | some a, some c =>
        let time_taken : ℚ := (c : ℚ) - (a : ℚ)
        { st with completed := n, avg_time := (st.avg_time * (n - 1 : ℚ) + time_taken) / (n : ℚ) }
    | _, _ => { st with completed := n }
  let agree : ℚ := if t.assigned_label = some t.predicted_label then 1 else 0
  let st2 := { st1 with agreement := (st1.agreement * (n - 1 : ℚ) + agree) / (n : ℚ) }
  { s with labeler_stats := aput labeler st2 s.labeler_stats }

/-- `LabelingService.submit_label`: for any existing task id, set the label,
confidence, notes, status LABELED and completion time; record the assignee
when truthy; write the label back into the collector store; update the
assignee's running stats. -/
def submit_label (now : Nat) (task_id : Nat) (label : Int) (labeler_id : Option String)
    (confidence : ℚ) (notes : String) (s : LState) : Bool × LState :=
  match alookup task_id s.tasks with
  | none => (false, s)
  | some t =>
      let t1 := { t with assigned_label := some label, labeler_confidence := confidence,
                         notes := notes, status := LabelingStatus.LABELED,
                         completed_at := some now,
                         assigned_to := if optTruthy labeler_id then labeler_id
                                        else t.assigned_to }
      let s1 := { s with tasks := aupd task_id (fun _ => t1) s.tasks }
      let s2 :=
        match s1.collector with
        | some db => { s1 with collector := some (set_label t1.sample_id label db).2 }
        | none => s1
      (true, if optTruthy t1.assigned_to then update_labeler_stats t1 s2 else s2)

/-- `LabelingService.skip_task`: for any existing task id, set status
SKIPPED, store the reason, stamp completion. -/
def skip_task (now : Nat) (task_id : Nat) (reason : String) (s : LState) : Bool × LState :=
  match alookup task_id s.tasks with
  | none => (false, s)
  | some t =>
      (true, { s with tasks := aupd task_id (fun _ =>
        { t with status := LabelingStatus.SKIPPED, notes := reason,
                 completed_at := some now }) s.tasks })

/-- `LabelingService.dispute_label`: for any existing task id, set status
DISPUTED and store the reason. -/
def dispute_label (task_id : Nat) (reason : String) (s : LState) : Bool × LState :=
  match alookup task_id s.tasks with
  | none => (false, s)
  | some t =>
      (true, { s with tasks := aupd task_id (fun _ =>
        { t with status := LabelingStatus.DISPUTED, notes := reason }) s.tasks })

/-! ### DeploymentManager (`src/cloud/services/deployment_manager.py`) -/

/-- `DeploymentStatus` enum. -/
inductive DeploymentStatus
  | PENDING | ROLLING_OUT | COMPLETED | FAILED | ROLLED_BACK
  deriving DecidableEq, Repr

/-- `DeviceUpdateStatus` enum. -/
inductive DeviceUpdateStatus
  | PENDING | NOTIFIED | DOWNLOADING | INSTALLING | COMPLETED | FAILED
  deriving DecidableEq, Repr

/-- `DeviceUpdateStatus(status)` by enum value; no member for the string
raises `ValueError`. -/
def parseDeviceStatus (s : String) : Option DeviceUpdateStatus :=
  if s = "pending" then some DeviceUpdateStatus.PENDING
  else if s = "notified" then some DeviceUpdateStatus.NOTIFIED
  else if s = "downloading" then some DeviceUpdateStatus.DOWNLOADING
  else if s = "installing" then some DeviceUpdateStatus.INSTALLING
  else if s = "completed" then some DeviceUpdateStatus.COMPLETED
  else if s = "failed" then some DeviceUpdateStatus.FAILED
  else none

/-- `DeployedModel` dataclass; file contents are byte lists, clock values
are naturals, metadata is an optional string dict. -/
structure DeployedModel where
  version : String
  file_path : String
  size_bytes : Nat
  hash_sha256 : String
  created_at : Nat
  deployed_at : Option Nat := none
  accuracy : ℚ := 0
  is_production : Bool := false
  metadata : Option (List (String × String)) := none
  deriving DecidableEq, Repr

/-- `DeviceDeployment` dataclass. -/
structure DeviceDeployment where
  device_id : String
  target_version : String
  current_version : String
  status : DeviceUpdateStatus
  notified_at : Option Nat := none
  completed_at : Option Nat := none
  error_message : String := ""
  deriving DecidableEq, Repr

/-- `DeploymentJob` dataclass. -/
structure DeploymentJob where
  deployment_id : String
  model_version : String
  target_devices : List String
  status : DeploymentStatus
  created_at : Nat
  completed_at : Option Nat := none
  success_count : Nat := 0
  failure_count : Nat := 0
  deriving DecidableEq, Repr

/-- The persisted registry document: the model map plus the production
pointer, as written by `_save_registry`. -/
def RegistryDoc := List (String × DeployedModel) × Option String
  deriving DecidableEq

/-- `DeploymentManager` state.  `notify` records whether the external
`notify_device` callback is wired (only its presence matters to the state:
delivery itself is an external effect). -/
structure DM where
  models_dir : String
  registry : List (String × DeployedModel)
  production_version : Option String
  deployments : List (String × DeploymentJob)
  device_status : List (String × DeviceDeployment)
  saved : Option RegistryDoc
  notify : Bool
  deriving DecidableEq

/-- A fresh manager over an empty registry file (`_load_registry` finds
nothing on a first start). -/
def dmInit (models_dir : String) (notify : Bool) : DM :=
  { models_dir := models_dir, registry := [], production_version := none,
    deployments := [], device_status := [], saved := none, notify := notify }

/-- The filesystem visible to `register_model`: path → file bytes. -/
def FileSys := List (String × List Nat)

/-- `DeploymentManager.register_model`: raise if the source artifact is
missing; otherwise copy it to the managed path, hash the copied bytes with
the injected `hash` capability (`hashlib.sha256`), store the entry under
`version` (replacing any existing entry), and persist the registry
document. -/
def register_model (hash : List Nat → String) (now : Nat) (fs : FileSys)
    (model_path : String) (version : String) (accuracy : ℚ)
    (metadata : Option (List (String × String))) (s : DM) :
    Except String (DeployedModel × FileSys × DM) :=
  match alookup model_path fs with
  | none => .error ("Model not found: " ++ model_path)
  | some content =>
      let dest := s.models_dir ++ "/model_" ++ version ++ ".tflite"
      let fs2 : FileSys := aput dest content fs
      let file_hash := hash content
      let model : DeployedModel :=
        { version := version, file_path := dest, size_bytes := content.length,
          hash_sha256 := file_hash, created_at := now, accuracy := accuracy,
          metadata := metadata }
      let reg2 := aput version model s.registry
      let s2 := { s with registry := reg2, saved := some (reg2, s.production_version) }
      .ok (model, fs2, s2)

/-- `DeploymentManager._set_production`: demote the current production
entry when the pointer is truthy (`if self.production_version and ...` —
the empty string is falsy, so an empty-string production version is never
demoted) and still in the registry, then promote `version` (stamping
`deployed_at`), move the pointer and persist. -/
def set_production (now : Nat) (version : String) (s : DM) : DM :=
  let reg1 :=
    match s.production_version with
    | some p => if p ≠ "" ∧ (alookup p s.registry).isSome = true
                then aupd p (fun m => { m with is_production := false }) s.registry
                else s.registry
    | none => s.registry
  let reg2 := aupd version (fun m =>
    { m with is_production := true, deployed_at := some now }) reg1
  { s with registry := reg2, production_version := some version,
           saved := some (reg2, some version) }

/-- `DeploymentManager._start_rollout`: mark the job ROLLING_OUT; when the
notification callback is wired, push the update to every target device
(explicit list, or all known devices when the list is empty) and overwrite
its `DeviceDeployment` with a fresh NOTIFIED record. -/
def start_rollout (now : Nat) (deployment : DeploymentJob) (s : DM) : DM :=
  let dep2 := { deployment with status := DeploymentStatus.ROLLING_OUT }
  let s1 := { s with deployments := aput dep2.deployment_id dep2 s.deployments }
  if s1.notify then
    let devices := if dep2.target_devices.isEmpty then akeys s1.device_status
                   else dep2.target_devices
    { s1 with device_status := devices.foldl (fun acc d =>
        aput d { device_id := d, target_version := dep2.model_version,
                 current_version := "", status := DeviceUpdateStatus.NOTIFIED,
                 notified_at := some now } acc) s1.device_status }
  else s1

/-- The fresh PENDING `DeploymentJob` minted by `deploy_model`. -/
def newDeployJob (version : String) (target_devices : Option (List String))
    (now : Nat) : DeploymentJob :=
  { deployment_id := "deploy_" ++ toString now, model_version := version,
    target_devices := target_devices.getD [],
    status := DeploymentStatus.PENDING, created_at := now }

/-- `DeploymentManager.deploy_model`: reject an unknown version; otherwise
record a new PENDING job, atomically set the version as production, and
start the rollout. -/
def deploy_model (version : String) (target_devices : Option (List String))
    (now : Nat) (s : DM) : Except String (String × DM) :=
  if (alookup version s.registry).isSome then
    let deployment := newDeployJob version target_devices now
    let s1 := { s with
      deployments := aput deployment.deployment_id deployment s.deployments }
    let s2 := set_production now version s1
    let s3 := start_rollout now deployment s2
    .ok (deployment.deployment_id, s3)
  else
    .error ("Unknown model version: " ++ version)

/-- The device set a job's completion check ranges over: the explicit
target list, or every known device when the list is empty. -/
def targetsOf (devmap : List (String × DeviceDeployment)) (j : DeploymentJob) :
    List String :=
  if j.target_devices.isEmpty then akeys devmap else j.target_devices

/-- The `(success, failure, pending)` counts of
`_check_deployment_completion`'s inner loop (devices without a record are
skipped). -/
def countStatuses (devmap : List (String × DeviceDeployment)) (devs : List String) :
    Nat × Nat × Nat :=
  devs.foldl
    (fun acc d =>
      match alookup d devmap with
      | none => acc
      | some dev =>
          match dev.status with
          | DeviceUpdateStatus.COMPLETED => (acc.1 + 1, acc.2.1, acc.2.2)
          | DeviceUpdateStatus.FAILED => (acc.1, acc.2.1 + 1, acc.2.2)
          | _ => (acc.1, acc.2.1, acc.2.2 + 1))
    (0, 0, 0)

/-- The per-job body of `_check_deployment_completion`: refresh the
success/failure counts; once no device is pending, stamp completion and set
the job status COMPLETED (the source sets COMPLETED in both the
`failure == 0` and the `failure > 0` branch). -/
def checkJob (now : Nat) (devmap : List (String × DeviceDeployment))
    (j : DeploymentJob) : DeploymentJob :=
  if j.status = DeploymentStatus.ROLLING_OUT then
    let c := countStatuses devmap (targetsOf devmap j)
    let j1 := { j with success_count := c.1, failure_count := c.2.1 }
    if c.2.2 = 0 then
      { j1 with status := DeploymentStatus.COMPLETED, completed_at := some now }
    else j1
  else j

/-- `DeploymentManager._check_deployment_completion` over every job. -/
def check_completion (now : Nat) (s : DM) : DM :=
  { s with deployments := s.deployments.map (fun kv =>
      (kv.1, checkJob now s.device_status kv.2)) }

/-- `DeploymentManager.report_device_status`: ignore unknown devices;
advance the device record (unknown status strings map to FAILED, truthy
`current_version`/`error` fields are copied, COMPLETED stamps the device's
completion time), then run the completion check when the new status is
COMPLETED or FAILED. -/
def report_device_status (device_id : String) (status : String)
    (current_version : Option String) (error : Option String) (now : Nat)
    (s : DM) : DM :=
  match alookup device_id s.device_status with
  | none => s
  | some dev =>
      let newst := (parseDeviceStatus status).getD DeviceUpdateStatus.FAILED
      let dev1 := { dev with status := newst }
      let dev2 := if optTruthy current_version
                  then { dev1 with current_version := current_version.getD "" }
                  else dev1
      let dev3 := if optTruthy error
                  then { dev2 with error_message := error.getD "" }
                  else dev2
      let dev4 := if newst = DeviceUpdateStatus.COMPLETED
                  then { dev3 with completed_at := some now }
                  else dev3
      let s1 := { s with device_status := aput device_id dev4 s.device_status }
      if newst = DeviceUpdateStatus.COMPLETED ∨ newst = DeviceUpdateStatus.FAILED
      then check_completion now s1
      else s1

/-- Stable descending insertion by `deployed_at`, matching Python
`sorted(..., key=lambda x: x[1], reverse=True)`. -/
def insertDesc (x : String × Nat) : List (String × Nat) → List (String × Nat)
  | [] => [x]
  | y :: t => if y.2 > x.2 then y :: insertDesc x t else x :: y :: t

/-- Sort the `(version, deployed_at)` pairs by `deployed_at` descending. -/
def sortDesc : List (String × Nat) → List (String × Nat)
  | [] => []
  | x :: t => insertDesc x (sortDesc t)

/-- `DeploymentManager.rollback`: with no explicit version, pick the
second-most-recently deployed version (fail when fewer than two deployed
versions exist); reject an unknown version; then redeploy through
`deploy_model`. -/
def rollback (to_version : Option String) (now : Nat) (s : DM) : Bool × DM :=
  let chosen : Option String :=
    match to_version with
    | some v => some v
    | none =>
        let versions := sortDesc (s.registry.filterMap (fun kv =>
          kv.2.deployed_at.map (fun d => (kv.1, d))))
        match versions with
        | _ :: second :: _ => some second.1
        | _ => none
  match chosen with
  | none => (false, s)
  | some v =>
      if (alookup v s.registry).isSome then
        match deploy_model v none now s with
        | .ok (_, s2) => (true, s2)
        | .error _ => (true, s)
      else (false, s)

/-- The state after a `register_model` call, whether it succeeded or raised
(a raise leaves the manager state unchanged). -/
def regState (hash : List Nat → String) (now : Nat) (fs : FileSys)
    (model_path : String) (version : String) (accuracy : ℚ)
    (metadata : Option (List (String × String))) (s : DM) : DM :=
  match register_model hash now fs model_path version accuracy metadata s with
  | .ok (_, _, s2) => s2
  | .error _ => s

/-- The state after a `deploy_model` call, whether it succeeded or raised. -/
def deployState (version : String) (target_devices : Option (List String))
    (now : Nat) (s : DM) : DM :=
  match deploy_model version target_devices now s with
  | .ok (_, s2) => s2
  | .error _ => s

/-- The registry states reachable from a fresh manager by the public
operations (`register_model`, `deploy_model`, `rollback`,
`report_device_status`), with arbitrary clocks, filesystems and hashing. -/
inductive Reach : DM → Prop
  | init (models_dir : String) (notify : Bool) : Reach (dmInit models_dir notify)
  | register {s} (h : Reach s) (hash : List Nat → String) (now : Nat) (fs : FileSys)
      (model_path version : String) (accuracy : ℚ)
      (metadata : Option (List (String × String))) :
      Reach (regState hash now fs model_path version accuracy metadata s)
  | deploy {s} (h : Reach s) (version : String)
      (target_devices : Option (List String)) (now : Nat) :
      Reach (deployState version target_devices now s)
  | rollbackStep {s} (h : Reach s) (to_version : Option String) (now : Nat) :
      Reach (rollback to_version now s).2
  | report {s} (h : Reach s) (device_id status : String)
      (current_version error : Option String) (now : Nat) :
      Reach (report_device_status device_id status current_version error now s)

/-- The number of registry entries flagged `is_production`. -/
def countProd (reg : List (String × DeployedModel)) : Nat :=
  ((avals reg).filter (fun m => m.is_production)).length

/-- The number of registry entries flagged `is_production` whose version
key is non-empty. -/
def countProdNE (reg : List (String × DeployedModel)) : Nat :=
  (reg.filter (fun kv => kv.2.is_production && !decide (kv.1 = ""))).length

/-! ### RetrainingOrchestrator (`src/cloud/services/retraining_orchestrator.py`) -/

/-- `RetrainingStatus` enum. -/
inductive RetrainingStatus
  | IDLE | SCHEDULED | PREPARING_DATA | TRAINING | VALIDATING | DEPLOYING
  | COMPLETED | FAILED
  deriving DecidableEq, Repr

/-- `RetrainingJob` dataclass. -/
structure RetrainingJob where
  job_id : String
  status : RetrainingStatus
  triggered_by : String
  created_at : Nat
  started_at : Option Nat := none
  completed_at : Option Nat := none
  num_samples : Nat := 0
  train_accuracy : ℚ := 0
  val_accuracy : ℚ := 0
  model_version : String := ""
  error_message : String := ""
  deriving DecidableEq, Repr

/-- `RetrainingConfig` dataclass (the policy fields `should_retrain`
reads; `min_labeled_rate` embeds the source's labeled-ratio threshold). -/
structure RetrainingConfig where
  min_samples_for_retraining : Int := 1000
  min_new_samples : Int := 200
  min_labeled_rate : ℚ := 1 / 2
  deriving DecidableEq, Repr

/-- The orchestrator's job state: the current-job pointer and the history
list. -/
structure OrchState where
  current_job : Option RetrainingJob := none
  job_history : List RetrainingJob := []
  deriving DecidableEq, Repr

/-- `status not in [RetrainingStatus.COMPLETED, RetrainingStatus.FAILED]`. -/
def RetrainingJob.nonTerminal (j : RetrainingJob) : Prop :=
  j.status ≠ RetrainingStatus.COMPLETED ∧ j.status ≠ RetrainingStatus.FAILED

instance (j : RetrainingJob) : Decidable j.nonTerminal := by
  unfold RetrainingJob.nonTerminal; infer_instance

/-- `RetrainingOrchestrator.should_retrain`: false while the current job is
non-terminal; otherwise all three policy thresholds on the collector's
stats summary must hold. -/
def should_retrain (cfg : RetrainingConfig) (s : OrchState) (db : CollectorDB) : Bool :=
  let nonterm :=
    match s.current_job with
    | some j => decide j.nonTerminal
    | none => false
  if nonterm then false
  else
    let stats := get_stats_summary db
    if (stats.total_samples : Int) < cfg.min_samples_for_retraining then false
    else if stats.labeling_rate < cfg.min_labeled_rate then false
    else if (stats.total_samples : Int) - (stats.used_for_training : Int) <
              cfg.min_new_samples then false
    else true

/-- The fresh SCHEDULED job minted by `trigger_retraining`. -/
def newRetrainingJob (trigger : String) (now : Nat) : RetrainingJob :=
  { job_id := "job_" ++ toString now, status := RetrainingStatus.SCHEDULED,
    triggered_by := trigger, created_at := now }

/-- `RetrainingOrchestrator.trigger_retraining`: under the job lock, mint a
fresh job id from the clock and overwrite `current_job` with a new
SCHEDULED job, then spawn the worker thread (the asynchronous job body is
outside this state step). -/
def trigger_retraining (trigger : String) (now : Nat) (s : OrchState) :
    String × OrchState :=
  let j := newRetrainingJob trigger now
  (j.job_id, { s with current_job := some j })

/-- One pass of the background scheduling loop body: trigger with reason
`"schedule"` exactly when `should_retrain` says so. -/
def worker_step (cfg : RetrainingConfig) (db : CollectorDB) (now : Nat)
    (s : OrchState) : OrchState :=
  if should_retrain cfg s db then (trigger_retraining "schedule" now s).2 else s

/-! ### Invariant predicates -/

/-- Every registry entry flagged `is_production` whose version key is
non-empty is the one the production pointer names.  The empty-string
version is exempt: `_set_production`'s truthiness guard never demotes it. -/
def prodInvEntries (reg : List (String × DeployedModel)) (prod : Option String) : Prop :=
  ∀ kv ∈ reg, kv.2.is_production = true → kv.1 ≠ "" → prod = some kv.1

/-- The registry well-formedness the public operations maintain: distinct
version keys, and non-empty-keyed production entries agree with the
pointer. -/
def ProdInv (s : DM) : Prop :=
  (akeys s.registry).Nodup ∧ prodInvEntries s.registry s.production_version

/-- The `tasks` dict is well formed: every stored task carries its own key
as `task_id`, and keys are distinct (this is how `_create_task` populates
the dict). -/
def TasksWF (tasks : List (Nat × LabelingTask)) : Prop :=
  (∀ kv ∈ tasks, kv.2.task_id = kv.1) ∧ (akeys tasks).Nodup

/-! ### Concrete fixtures for counterexamples and witnesses -/

/-- An unlabeled stored sample owned by device `dev-a`. -/
def sampleRowF : SampleRow :=
  { device_id := "dev-a", features := [1], predicted_label := 1,
    confidence := 1 / 2, label_source := 0, timestamp := 0, received_at := 0,
    true_label := none, used_for_training := false }

/-- The `dev-a` device row before any labeling. -/
def deviceRowF : DeviceRow :=
  { total_samples := 1, labeled_samples := 0, last_seen := 0, model_version := none }

/-- A store with one unlabeled sample and its owning device. -/
def dbF : CollectorDB :=
  { samples := [(1, sampleRowF)], devices := [("dev-a", deviceRowF)] }

/-- An envelope that is invalid per the spec: empty device id and empty
feature vector. -/
def envEmptyF : Envelope :=
  { device_id := some "", features := some ([] : List ℚ), predicted_label := some 1,
    confidence := some (1 / 2), label_source := some 0, timestamp := some 10 }

/-- A task that was skipped. -/
def taskSkippedF : LabelingTask :=
  { task_id := 1, sample_id := 1, device_id := "dev-a", features := [],
    predicted_label := 0, confidence := 1 / 2, priority := LabelingPriority.LOW,
    status := LabelingStatus.SKIPPED, created_at := 0 }

/-- A labeling service holding only the skipped task. -/
def lsSkippedF : LState := { tasks := [(1, taskSkippedF)] }

/-- A pending task. -/
def taskPendingF : LabelingTask :=
  { task_id := 2, sample_id := 5, device_id := "dev-a", features := [],
    predicted_label := 0, confidence := 1 / 2, priority := LabelingPriority.MEDIUM,
    status := LabelingStatus.PENDING, created_at := 3 }

/-- A labeling service holding one pending task. -/
def lsPendingF : LState := { tasks := [(2, taskPendingF)] }

/-- A retraining job in flight. -/
def jobTrainingF : RetrainingJob :=
  { job_id := "job_0", status := RetrainingStatus.TRAINING,
    triggered_by := "manual", created_at := 0 }

/-- An orchestrator whose current job is the in-flight training job. -/
def orchBusyF : OrchState := { current_job := some jobTrainingF }

/-- A permissive retraining policy, satisfied by `dbF`. -/
def cfgF : RetrainingConfig :=
  { min_samples_for_retraining := 1, min_new_samples := 1, min_labeled_rate := 0 }

/-- A registered but not yet deployed model version `v2`. -/
def modelV2F : DeployedModel :=
  { version := "v2", file_path := "m/model_v2.tflite", size_bytes := 3,
    hash_sha256 := "h2", created_at := 0 }

/-- A registered model version `v1`, currently in production. -/
def modelV1F : DeployedModel :=
  { version := "v1", file_path := "m/model_v1.tflite", size_bytes := 2,
    hash_sha256 := "h1", created_at := 0, deployed_at := some 0,
    is_production := true }

/-- A manager holding only `v2`, with the notification callback wired. -/
def dmRolloutF : DM :=
  { models_dir := "m", registry := [("v2", modelV2F)], production_version := none,
    deployments := [], device_status := [], saved := none, notify := true }

/-- The rollout scenario: deploy `v2` to three devices, then report two
completions and one failure. -/
def dmRolloutDoneF : DM :=
  report_device_status "d3" "failed" none (some "boom") 4
    (report_device_status "d2" "completed" (some "v2") none 3
      (report_device_status "d1" "completed" (some "v2") none 2
        (deployState "v2" (some ["d1", "d2", "d3"]) 1 dmRolloutF)))

/-- A manager with `v1` in production and `v2` registered. -/
def dmTwoF : DM :=
  { models_dir := "m", registry := [("v1", modelV1F), ("v2", modelV2F)],
    production_version := some "v1", deployments := [], device_status := [],
    saved := none, notify := false }

/-- `dmTwoF` after promoting `v2`. -/
def dmTwoDeployedF : DM := deployState "v2" none 3 dmTwoF

/-- A filesystem holding one artifact. -/
def fsF : FileSys := [("artifact.tflite", [7, 8, 9])]

/-- An ingestion state with an empty queue. -/
def collEmptyF : CollectorState := { sample_queue := [] }

/-- An orchestrator with no current job. -/
def orchIdleF : OrchState := {}

/-- A rolling-out deployment job targeting one device. -/
def jobRollingF : DeploymentJob :=
  { deployment_id := "deploy_9", model_version := "v2", target_devices := ["d"],
    status := DeploymentStatus.ROLLING_OUT, created_at := 0 }

/-- A device record that has completed its update. -/
def devDoneF : DeviceDeployment :=
  { device_id := "d", target_version := "v2", current_version := "v2",
    status := DeviceUpdateStatus.COMPLETED }

/-- A stand-in for the injected sha256 capability. -/
def hashF : List Nat → String := fun content => "sha-" ++ toString content.length

/-- A manager state built by the public operations alone: register and
deploy the empty-string version, then register and deploy `v2`.  The
truthiness guard of `_set_production` skips demoting the falsy `""`
pointer, so both entries end up flagged production. -/
def dmDoubleProdF : DM :=
  deployState "v2" none 4
    (regState hashF 3 fsF "artifact.tflite" "v2" 0 none
      (deployState "" none 2
        (regState hashF 1 fsF "artifact.tflite" "" 0 none
          (dmInit "m" false))))

/-! ### Association-list lemmas -/

theorem alookup_aput [DecidableEq κ] (k k' : κ) (v : α) (l : List (κ × α)) :
    alookup k' (aput k v l) = if k' = k then some v else alookup k' l := by
  induction l with
  | nil =>
      by_cases h : k' = k
      · simp [aput, alookup, h]
      · simp [aput, alookup, h, Ne.symm h]
  | cons hd t ih =>
      obtain ⟨k₁, v₁⟩ := hd
      simp only [aput]
      by_cases h1 : k₁ = k
      · subst h1
        simp only [if_pos rfl, alookup]
        by_cases h2 : k₁ = k'
        · subst h2; simp
        · simp [h2, Ne.symm h2]
      · simp only [if_neg h1, alookup]
        by_cases h2 : k₁ = k'
        · subst h2; simp [h1]
        · simp [h2, ih]

theorem alookup_aupd [DecidableEq κ] (k k' : κ) (f : α → α) (l : List (κ × α)) :
    alookup k' (aupd k f l) =
      if k' = k then (alookup k l).map f else alookup k' l := by
  induction l with
  | nil => simp [aupd, alookup]
  | cons hd t ih =>
      obtain ⟨k₁, v₁⟩ := hd
      simp only [aupd]
      by_cases h1 : k₁ = k
      · subst h1
        simp only [if_pos rfl, alookup]
        by_cases h2 : k₁ = k'
        · subst h2; simp
        · simp [h2, Ne.symm h2]
      · simp only [if_neg h1, alookup]
        by_cases h2 : k₁ = k'
        · subst h2; simp [h1]
        · simp [h1, h2, ih]

theorem akeys_aupd [DecidableEq κ] (k : κ) (f : α → α) (l : List (κ × α)) :
    akeys (aupd k f l) = akeys l := by
  induction l with
  | nil => rfl
  | cons hd t ih =>
      obtain ⟨k₁, v₁⟩ := hd
      by_cases h1 : k₁ = k
      · simp [aupd, h1, akeys]
      · simp [aupd, h1, akeys] at ih ⊢
        exact ih

theorem akeys_aput [DecidableEq κ] (k : κ) (v : α) (l : List (κ × α)) :
    akeys (aput k v l) = if k ∈ akeys l then akeys l else akeys l ++ [k] := by
  induction l with
  | nil => simp [aput, akeys]
  | cons hd t ih =>
      obtain ⟨k₁, v₁⟩ := hd
      by_cases h1 : k₁ = k
      · subst h1; simp [aput, akeys]
      · have hne : ¬ k = k₁ := fun h => h1 h.symm
        simp only [aput, if_neg h1, akeys, List.map_cons, List.mem_cons, hne,
          false_or]
        by_cases h2 : k ∈ List.map Prod.fst t
        · simp only [akeys] at ih
          simp [h2, ih]
        · simp only [akeys] at ih
          simp [h2, ih]

theorem akeys_aput_nodup [DecidableEq κ] (k : κ) (v : α) (l : List (κ × α))
    (h : (akeys l).Nodup) : (akeys (aput k v l)).Nodup := by
  rw [akeys_aput]
  by_cases h2 : k ∈ akeys l
  · simpa [h2] using h
  · rw [if_neg h2]
    refine List.Nodup.append h (List.nodup_singleton k) ?_
    intro a ha hak
    rw [List.mem_singleton] at hak
    exact h2 (hak ▸ ha)

theorem mem_of_alookup [DecidableEq κ] {k : κ} {v : α} {l : List (κ × α)}
    (h : alookup k l = some v) : (k, v) ∈ l := by
  induction l with
  | nil => simp [alookup] at h
  | cons hd t ih =>
      obtain ⟨k₁, v₁⟩ := hd
      simp only [alookup] at h
      by_cases h1 : k₁ = k
      · rw [if_pos h1] at h
        injection h with h2
        subst h1; subst h2
        exact List.mem_cons_self _ _
      · rw [if_neg h1] at h
        exact List.mem_cons_of_mem _ (ih h)

theorem alookup_of_mem [DecidableEq κ] {k : κ} {v : α} {l : List (κ × α)}
    (hnd : (akeys l).Nodup) (h : (k, v) ∈ l) : alookup k l = some v := by
  induction l with
  | nil => simp at h
  | cons hd t ih =>
      obtain ⟨k₁, v₁⟩ := hd
      simp only [akeys, List.map_cons, List.nodup_cons] at hnd
      rcases List.mem_cons.mp h with h2 | h2
      · simp only [Prod.mk.injEq] at h2
        obtain ⟨rfl, rfl⟩ := h2
        simp [alookup]
      · have hk : ¬ k₁ = k := by
          intro he; subst he
          exact hnd.1 (List.mem_map_of_mem Prod.fst h2)
        rw [show alookup k ((k₁, v₁) :: t) = alookup k t by simp [alookup, hk]]
        exact ih (by simpa [akeys] using hnd.2) h2

theorem alookup_eq_none [DecidableEq κ] {k : κ} {l : List (κ × α)} :
    alookup k l = none ↔ k ∉ akeys l := by
  induction l with
  | nil => simp [alookup, akeys]
  | cons hd t ih =>
      obtain ⟨k₁, v₁⟩ := hd
      by_cases h1 : k₁ = k
      · subst h1; simp [alookup, akeys]
      · simp [alookup, h1, akeys, Ne.symm h1] at ih ⊢
        exact ih

theorem mem_aput [DecidableEq κ] {k : κ} {v : α} {l : List (κ × α)} {e : κ × α}
    (hnd : (akeys l).Nodup) (h : e ∈ aput k v l) :
    (e ∈ l ∧ e.1 ≠ k) ∨ e = (k, v) := by
  induction l with
  | nil =>
      right
      simpa [aput] using h
  | cons hd t ih =>
      obtain ⟨k₁, v₁⟩ := hd
      simp only [akeys, List.map_cons, List.nodup_cons] at hnd
      by_cases h1 : k₁ = k
      · subst h1
        rcases List.mem_cons.mp (by simpa [aput] using h) with h2 | h2
        · right; exact h2
        · left
          refine ⟨List.mem_cons_of_mem _ h2, fun he => ?_⟩
          exact hnd.1 (he ▸ List.mem_map_of_mem Prod.fst h2)
      · rcases List.mem_cons.mp (by simpa [aput, h1] using h) with h2 | h2
        · left
          subst h2
          exact ⟨List.mem_cons_self _ _, h1⟩
        · rcases ih (by simpa [akeys] using hnd.2) h2 with ⟨h3, h4⟩ | h3
          · left; exact ⟨List.mem_cons_of_mem _ h3, h4⟩
          · right; exact h3

theorem mem_aupd [DecidableEq κ] {k : κ} {f : α → α} {l : List (κ × α)} {e : κ × α}
    (hnd : (akeys l).Nodup) (h : e ∈ aupd k f l) :
    (e ∈ l ∧ e.1 ≠ k) ∨ ∃ m, (k, m) ∈ l ∧ e = (k, f m) := by
  induction l with
  | nil => simp [aupd] at h
  | cons hd t ih =>
      obtain ⟨k₁, v₁⟩ := hd
      simp only [akeys, List.map_cons, List.nodup_cons] at hnd
      by_cases h1 : k₁ = k
      · subst h1
        rcases List.mem_cons.mp (by simpa [aupd] using h) with h2 | h2
        · right; exact ⟨v₁, List.mem_cons_self _ _, h2⟩
        · left
          refine ⟨List.mem_cons_of_mem _ h2, fun he => ?_⟩
          exact hnd.1 (he ▸ List.mem_map_of_mem Prod.fst h2)
      · rcases List.mem_cons.mp (by simpa [aupd, h1] using h) with h2 | h2
        · left
          subst h2
          exact ⟨List.mem_cons_self _ _, h1⟩
        · rcases ih (by simpa [akeys] using hnd.2) h2 with ⟨h3, h4⟩ | ⟨m, h3, h4⟩
          · left; exact ⟨List.mem_cons_of_mem _ h3, h4⟩
          · right; exact ⟨m, List.mem_cons_of_mem _ h3, h4⟩

/-! ### Selection-order lemmas -/

theorem beats_iff (u v : LabelingTask) :
    beats u v = true ↔
      (v.priority.val < u.priority.val ∨
        (u.priority.val = v.priority.val ∧ u.created_at < v.created_at)) := by
  simp [beats]

theorem beats_irrefl (a : LabelingTask) : beats a a = false := by
  simp [beats]

theorem beats_trans {a b c : LabelingTask} (h1 : beats a b = true)
    (h2 : beats b c = true) : beats a c = true := by
  rw [beats_iff] at h1 h2 ⊢
  omega

theorem not_beats_trans {a b c : LabelingTask} (h1 : beats a b = false)
    (h2 : beats b c = false) : beats a c = false := by
  rw [Bool.eq_false_iff, Ne, beats_iff] at h1 h2 ⊢
  omega

theorem selectNext_go (l : List LabelingTask) (a : LabelingTask) :
    ∃ c, (l.foldl
        (fun acc t =>
          match acc with
          | none => some t
          | some b => if beats t b then some t else some b)
        (some a)) = some c ∧
      (c = a ∨ c ∈ l) ∧ beats a c = false ∧ ∀ u ∈ l, beats u c = false := by
  induction l generalizing a with
  | nil => exact ⟨a, rfl, Or.inl rfl, beats_irrefl a, by simp⟩
  | cons t rest ih =>
      by_cases hb : beats t a = true
      · obtain ⟨c, hc, hmem, hac, hall⟩ := ih t
        refine ⟨c, by simpa [hb] using hc, ?_, ?_, ?_⟩
        · rcases hmem with rfl | hmem
          · exact Or.inr (List.mem_cons_self _ _)
          · exact Or.inr (List.mem_cons_of_mem _ hmem)
        · -- from beats t a and ¬ beats t c, beats a c would give beats t c
          cases hax : beats a c with
          | false => rfl
          | true => exact absurd (beats_trans hb hax) (by simp [hac])
        · intro u hu
          rcases List.mem_cons.mp hu with rfl | hu
          · exact hac
          · exact hall u hu
      · have hb' : beats t a = false := by
          cases hbv : beats t a
          · rfl
          · exact absurd hbv hb
        obtain ⟨c, hc, hmem, hac, hall⟩ := ih a
        refine ⟨c, by simpa [hb'] using hc, ?_, hac, ?_⟩
        · rcases hmem with rfl | hmem
          · exact Or.inl rfl
          · exact Or.inr (List.mem_cons_of_mem _ hmem)
        · intro u hu
          rcases List.mem_cons.mp hu with rfl | hu
          · exact not_beats_trans hb' hac
          · exact hall u hu

theorem selectNext_spec {l : List LabelingTask} (h : l ≠ []) :
    ∃ c, selectNext l = some c ∧ c ∈ l ∧ ∀ u ∈ l, beats u c = false := by
  cases l with
  | nil => exact absurd rfl h
  | cons x t =>
      obtain ⟨c, hc, hmem, hxc, hall⟩ := selectNext_go t x
      refine ⟨c, by simpa [selectNext] using hc, ?_, ?_⟩
      · rcases hmem with rfl | hmem
        · exact List.mem_cons_self _ _
        · exact List.mem_cons_of_mem _ hmem
      · intro u hu
        rcases List.mem_cons.mp hu with rfl | hu
        · exact hxc
        · exact hall u hu

theorem selectNext_mem {l : List LabelingTask} {c : LabelingTask}
    (h : selectNext l = some c) : c ∈ l ∧ ∀ u ∈ l, beats u c = false := by
  cases l with
  | nil => simp [selectNext] at h
  | cons x t =>
      obtain ⟨c', hc', hmem, hall⟩ := selectNext_spec (l := x :: t) (by simp)
      rw [h] at hc'
      injection hc' with hc2
      subst hc2
      exact ⟨hmem, hall⟩

/-! ### Production-pointer invariant lemmas -/

theorem countProdNE_le_one {reg : List (String × DeployedModel)}
    {prod : Option String}
    (hnd : (akeys reg).Nodup) (hinv : prodInvEntries reg prod) :
    countProdNE reg ≤ 1 := by
  induction reg with
  | nil => simp [countProdNE]
  | cons hd t ih =>
      obtain ⟨k, m⟩ := hd
      simp only [akeys, List.map_cons, List.nodup_cons] at hnd
      have hinv_t : prodInvEntries t prod := fun kv hkv hp hk =>
        hinv kv (List.mem_cons_of_mem _ hkv) hp hk
      by_cases hm : (m.is_production && !decide (k = "")) = true
      · have hmp : m.is_production = true ∧ k ≠ "" := by simpa using hm
        have hp : prod = some k :=
          hinv (k, m) (List.mem_cons_self _ _) hmp.1 hmp.2
        have hzero : countProdNE t = 0 := by
          rw [countProdNE, List.length_eq_zero, List.filter_eq_nil_iff]
          intro kv hkv hpa
          have hpa2 : kv.2.is_production = true ∧ kv.1 ≠ "" := by simpa using hpa
          have := hinv_t kv hkv hpa2.1 hpa2.2
          rw [hp] at this
          injection this with hk
          exact hnd.1 (hk ▸ List.mem_map_of_mem Prod.fst hkv)
        have hcons : countProdNE ((k, m) :: t) = countProdNE t + 1 := by
          simp [countProdNE, hm]
        omega
      · have hcons : countProdNE ((k, m) :: t) = countProdNE t := by
          simp [countProdNE, hm]
        rw [hcons]
        exact ih (by simpa [akeys] using hnd.2) hinv_t

theorem set_production_fields (now : Nat) (v : String) (s : DM) :
    (set_production now v s).production_version = some v ∧
    (set_production now v s).models_dir = s.models_dir ∧
    (set_production now v s).deployments = s.deployments ∧
    (set_production now v s).device_status = s.device_status ∧
    (set_production now v s).notify = s.notify := by
  simp [set_production]

theorem prodInv_set_production {s : DM} (hI : ProdInv s) (now : Nat) (v : String) :
    ProdInv (set_production now v s) := by
  obtain ⟨hnd, hinv⟩ := hI
  simp only [set_production]
  cases hp : s.production_version with
  | none =>
      refine ⟨by simpa [akeys_aupd] using hnd, ?_⟩
      intro e he hprod hkne
      rcases mem_aupd hnd he with ⟨hmem, _⟩ | ⟨m, _, rfl⟩
      · have := hinv e hmem hprod hkne
        rw [hp] at this
        exact absurd this (by simp)
      · rfl
  | some p =>
      by_cases hq : p ≠ "" ∧ (alookup p s.registry).isSome = true
      · simp only [if_pos hq]
        have hnd1 : (akeys (aupd p
            (fun m => { m with is_production := false }) s.registry)).Nodup := by
          simpa [akeys_aupd] using hnd
        refine ⟨by simpa [akeys_aupd] using hnd, ?_⟩
        intro e he hprod hkne
        rcases mem_aupd hnd1 he with ⟨hmem1, hne⟩ | ⟨m, _, rfl⟩
        · rcases mem_aupd hnd hmem1 with ⟨hmem0, hne0⟩ | ⟨m0, _, rfl⟩
          · have := hinv e hmem0 hprod hkne
            rw [hp] at this
            injection this with hpe
            exact absurd hpe.symm hne0
          · simp at hprod
        · rfl
      · simp only [if_neg hq]
        refine ⟨by simpa [akeys_aupd] using hnd, ?_⟩
        intro e he hprod hkne
        rcases mem_aupd hnd he with ⟨hmem, _⟩ | ⟨m, _, rfl⟩
        · have := hinv e hmem hprod hkne
          rw [hp] at this
          injection this with hpe
          rcases not_and_or.mp hq with hpe2 | hq2
          · rw [not_not] at hpe2
            rw [hpe2] at hpe
            exact absurd hpe.symm hkne
          · have hmemk : p ∈ akeys s.registry :=
              hpe ▸ List.mem_map_of_mem Prod.fst hmem
            have hnone : alookup p s.registry = none := by
              rcases hx : alookup p s.registry with _ | w
              · rfl
              · exact absurd (by simp [hx]) hq2
            exact absurd hmemk (alookup_eq_none.mp hnone)
        · rfl

theorem prodInv_of_fields {s s' : DM} (hI : ProdInv s) (hr : s'.registry = s.registry)
    (hp : s'.production_version = s.production_version) : ProdInv s' := by
  obtain ⟨hnd, hinv⟩ := hI
  exact ⟨hr ▸ hnd, hp ▸ hr ▸ hinv⟩

theorem prodInv_regState {s : DM} (hI : ProdInv s) (hash : List Nat → String)
    (now : Nat) (fs : FileSys) (model_path version : String) (accuracy : ℚ)
    (metadata : Option (List (String × String))) :
    ProdInv (regState hash now fs model_path version accuracy metadata s) := by
  obtain ⟨hnd, hinv⟩ := hI
  simp only [regState, register_model]
  cases hc : alookup model_path fs with
  | none => exact ⟨hnd, hinv⟩
  | some content =>
      refine ⟨akeys_aput_nodup _ _ _ hnd, ?_⟩
      intro e he hprod
      rcases mem_aput hnd he with ⟨hmem, _⟩ | rfl
      · exact hinv e hmem hprod
      · simp at hprod

theorem start_rollout_fields (now : Nat) (dep : DeploymentJob) (s : DM) :
    (start_rollout now dep s).registry = s.registry ∧
    (start_rollout now dep s).production_version = s.production_version := by
  simp only [start_rollout]
  by_cases h : s.notify <;> simp [h]

theorem prodInv_deployState {s : DM} (hI : ProdInv s) (version : String)
    (target_devices : Option (List String)) (now : Nat) :
    ProdInv (deployState version target_devices now s) := by
  by_cases hc : (alookup version s.registry).isSome
  · have hred : deployState version target_devices now s =
        start_rollout now (newDeployJob version target_devices now)
          (set_production now version
            { s with deployments :=
                (aput (newDeployJob version target_devices now).deployment_id
                  (newDeployJob version target_devices now) s.deployments) }) := by
      simp [deployState, deploy_model, hc]
    rw [hred]
    have h1 : ProdInv { s with deployments :=
        (aput (newDeployJob version target_devices now).deployment_id
          (newDeployJob version target_devices now) s.deployments) } :=
      prodInv_of_fields hI rfl rfl
    have h2 := prodInv_set_production h1 now version
    exact prodInv_of_fields h2 (start_rollout_fields _ _ _).1
      (start_rollout_fields _ _ _).2
  · have hred : deployState version target_devices now s = s := by
      simp [deployState, deploy_model, hc]
    rw [hred]
    exact hI

theorem report_fields (device_id status : String) (cv err : Option String)
    (now : Nat) (s : DM) :
    (report_device_status device_id status cv err now s).registry = s.registry ∧
    (report_device_status device_id status cv err now s).production_version =
      s.production_version := by
  unfold report_device_status
  cases alookup device_id s.device_status with
  | none => exact ⟨rfl, rfl⟩
  | some dev =>
      simp only [check_completion]
      split <;> simp

theorem prodInv_report {s : DM} (hI : ProdInv s) (device_id status : String)
    (cv err : Option String) (now : Nat) :
    ProdInv (report_device_status device_id status cv err now s) :=
  prodInv_of_fields hI (report_fields device_id status cv err now s).1
    (report_fields device_id status cv err now s).2

theorem rollback_state (to_version : Option String) (now : Nat) (s : DM) :
    (rollback to_version now s).2 = s ∨
      ∃ v, (rollback to_version now s).2 = deployState v none now s := by
  simp only [rollback]
  split
  · left; rfl
  · rename_i x v heq
    split
    · cases hd : deploy_model v none now s with
      | ok r =>
          obtain ⟨id, s2⟩ := r
          right
          exact ⟨v, by simp [deployState, hd]⟩
      | error e =>
          left
          rfl
    · left; rfl

theorem prodInv_rollback {s : DM} (hI : ProdInv s) (to_version : Option String)
    (now : Nat) : ProdInv (rollback to_version now s).2 := by
  rcases rollback_state to_version now s with h | ⟨v, h⟩
  · rw [h]; exact hI
  · rw [h]; exact prodInv_deployState hI v none now

theorem prodInv_reach {s : DM} (h : Reach s) : ProdInv s := by
  induction h with
  | init models_dir notify =>
      exact ⟨by simp [dmInit, akeys], fun e he _ => absurd he (by simp [dmInit])⟩
  | register h hash now fs model_path version accuracy metadata ih =>
      exact prodInv_regState ih hash now fs model_path version accuracy metadata
  | deploy h version target_devices now ih =>
      exact prodInv_deployState ih version target_devices now
  | rollbackStep h to_version now ih => exact prodInv_rollback ih to_version now
  | report h device_id status cv err now ih =>
      exact prodInv_report ih device_id status cv err now

theorem alookup_map_cond [DecidableEq κ] (k d : κ) (g : α → α) (l : List (κ × α)) :
    alookup k (l.map (fun kv => if kv.1 = d then (kv.1, g kv.2) else kv)) =
      if k = d then (alookup k l).map g else alookup k l := by
  induction l with
  | nil => simp [alookup]
  | cons kv t ih =>
      rw [List.map_cons]
      by_cases h1 : kv.1 = d
      · rw [if_pos h1]
        show (if kv.1 = k then some (g kv.2)
              else alookup k (t.map (fun kv => if kv.1 = d then (kv.1, g kv.2) else kv))) =
          if k = d then (Option.map g (if kv.1 = k then some kv.2 else alookup k t))
          else (if kv.1 = k then some kv.2 else alookup k t)
        by_cases h2 : kv.1 = k
        · simp only [if_pos h2, if_pos (h2.symm.trans h1), Option.map]
        · simp only [if_neg h2, ih]
      · rw [if_neg h1]
        show (if kv.1 = k then some kv.2
              else alookup k (t.map (fun kv => if kv.1 = d then (kv.1, g kv.2) else kv))) =
          if k = d then (Option.map g (if kv.1 = k then some kv.2 else alookup k t))
          else (if kv.1 = k then some kv.2 else alookup k t)
        by_cases h2 : kv.1 = k
        · have h3 : ¬ k = d := fun hh => h1 (h2.trans hh)
          simp only [if_pos h2, if_neg h3]
        · simp only [if_neg h2, ih]

/-! ### Claim theorems -/

/-- C1 counterexample: with a current job still TRAINING (non-terminal), a
`trigger_retraining` call replaces it with a brand-new SCHEDULED job — the
claim that the non-terminal current job is never replaced is false on the
code. -/
theorem trigger_replaces_nonterminal_cex :
    jobTrainingF.nonTerminal ∧
    orchBusyF.current_job = some jobTrainingF ∧
    ((trigger_retraining "manual" 5 orchBusyF).2.current_job).map
        RetrainingJob.job_id = some "job_5" ∧
    jobTrainingF.job_id = "job_0" ∧
    ((trigger_retraining "manual" 5 orchBusyF).2.current_job).map
        RetrainingJob.status = some RetrainingStatus.SCHEDULED ∧
    (trigger_retraining "manual" 5 orchBusyF).2.current_job ≠ some jobTrainingF := by
  refine ⟨by decide, rfl, by decide, rfl, rfl, fun h => ?_⟩
  have h2 : Option.map RetrainingJob.job_id
      ((trigger_retraining "manual" 5 orchBusyF).2.current_job) =
      Option.map RetrainingJob.job_id (some jobTrainingF) := by rw [h]
  rw [show Option.map RetrainingJob.job_id
      ((trigger_retraining "manual" 5 orchBusyF).2.current_job) =
      some "job_5" from by decide] at h2
  exact absurd h2 (by decide)

/-- C1 amended: `trigger_retraining` never rejects — even with a
non-terminal current job it overwrites `current_job` with a fresh SCHEDULED
job.  Single-flight is maintained only through the policy guard:
`should_retrain` is false whenever the current job is non-terminal, so the
background scheduling loop (`worker_step`) never triggers a second
concurrent job. -/
theorem trigger_singleflight_amended (cfg : RetrainingConfig) (db : CollectorDB)
    (s : OrchState) (j : RetrainingJob) (reason : String) (now : Nat)
    (h : s.current_job = some j) (hnt : j.nonTerminal) :
    (trigger_retraining reason now s).2.current_job =
      some (newRetrainingJob reason now) ∧
    (newRetrainingJob reason now).status = RetrainingStatus.SCHEDULED ∧
    should_retrain cfg s db = false ∧
    worker_step cfg db now s = s := by
  have hsr : should_retrain cfg s db = false := by
    simp [should_retrain, h, hnt]
  exact ⟨rfl, rfl, hsr, by simp [worker_step, hsr]⟩

/-- C1 witness: the amended statement at the busy fixture. -/
theorem trigger_singleflight_amended_witness :
    (trigger_retraining "manual" 5 orchBusyF).2.current_job =
      some (newRetrainingJob "manual" 5) ∧
    (newRetrainingJob "manual" 5).status = RetrainingStatus.SCHEDULED ∧
    should_retrain cfgF orchBusyF dbF = false ∧
    worker_step cfgF dbF 5 orchBusyF = orchBusyF :=
  trigger_singleflight_amended cfgF dbF orchBusyF jobTrainingF "manual" 5 rfl
    (by decide)

/-- C5 counterexample: an envelope with an empty device id and an empty
feature vector is accepted: `receive_sample` returns success and enqueues
the defaulted sample, so the claimed synchronous validation rejection does
not exist. -/
theorem receive_sample_no_validation_cex :
    (TrainingSample.from_dict envEmptyF 7).device_id = "" ∧
    (TrainingSample.from_dict envEmptyF 7).features = [] ∧
    (receive_sample envEmptyF 7 collEmptyF).1 = true ∧
    (receive_sample envEmptyF 7 collEmptyF).2.sample_queue =
      [TrainingSample.from_dict envEmptyF 7] :=
  ⟨rfl, rfl, rfl, rfl⟩

/-- C5 amended: `receive_sample` performs no envelope validation at all —
every envelope (in particular one with an empty device id or empty
features) is defaulted by `from_dict`, enqueued for persistence, and
acknowledged with success. -/
theorem receive_sample_amended (env : Envelope) (now : Nat) (s : CollectorState) :
    receive_sample env now s =
      (true, { s with sample_queue :=
        s.sample_queue ++ [TrainingSample.from_dict env now] }) := rfl

/-- C7 counterexample: labeling the same sample twice leaves the sample row
unchanged but bumps the owning device's `labeled_samples` both times
(1 after one call, 2 after two), so `set_label` is not idempotent. -/
theorem set_label_not_idempotent_cex :
    (alookup "dev-a" (set_label 1 2 dbF).2.devices).map
        (fun r => r.labeled_samples) = some 1 ∧
    (alookup "dev-a" (set_label 1 2 (set_label 1 2 dbF).2).2.devices).map
        (fun r => r.labeled_samples) = some 2 ∧
    (set_label 1 2 (set_label 1 2 dbF).2).2 ≠ (set_label 1 2 dbF).2 := by
  refine ⟨rfl, rfl, fun h => ?_⟩
  have h2 : (alookup "dev-a" (set_label 1 2 (set_label 1 2 dbF).2).2.devices).map
      (fun r => r.labeled_samples) =
      (alookup "dev-a" (set_label 1 2 dbF).2.devices).map
      (fun r => r.labeled_samples) := by rw [h]
  rw [show (alookup "dev-a" (set_label 1 2 (set_label 1 2 dbF).2).2.devices).map
      (fun r => r.labeled_samples) = some 2 from rfl] at h2
  rw [show (alookup "dev-a" (set_label 1 2 dbF).2.devices).map
      (fun r => r.labeled_samples) = some 1 from rfl] at h2
  exact absurd h2 (by decide)

/-- C7 amended: `set_label` is idempotent on the `samples` table (the same
`true_label` is written again), but the owning device's `labeled_samples`
counter is incremented on every call, including repeated labelings of the
same sample. -/
theorem sqlUpdateSamples_idem (sid : Nat) (label : Int)
    (samples : List (Nat × SampleRow)) :
    sqlUpdateSamples sid label (sqlUpdateSamples sid label samples) =
      sqlUpdateSamples sid label samples := by
  simp only [sqlUpdateSamples, List.map_map]
  refine List.map_congr_left (fun kv _ => ?_)
  by_cases h : kv.1 = sid <;> simp [h]

theorem alookup_sqlBump (k d : String) (devices : List (String × DeviceRow)) :
    alookup k (sqlBumpOwner (some d) devices) =
      if k = d then
        (alookup k devices).map
          (fun r => { r with labeled_samples := r.labeled_samples + 1 })
      else alookup k devices :=
  alookup_map_cond k d
    (fun r : DeviceRow => { r with labeled_samples := r.labeled_samples + 1 }) devices

theorem set_label_amended (db : CollectorDB) (sid : Nat) (label : Int) :
    ((set_label sid label (set_label sid label db).2).2.samples =
      (set_label sid label db).2.samples) ∧
    (∀ d row,
      (alookup sid (set_label sid label db).2.samples).map
          (fun r => r.device_id) = some d →
      alookup d (set_label sid label db).2.devices = some row →
      alookup d (set_label sid label (set_label sid label db).2).2.devices =
        some { row with labeled_samples := row.labeled_samples + 1 }) := by
  have hs1 : (set_label sid label db).2.samples =
      sqlUpdateSamples sid label db.samples := rfl
  have hs2 : (set_label sid label (set_label sid label db).2).2.samples =
      sqlUpdateSamples sid label (sqlUpdateSamples sid label db.samples) := rfl
  constructor
  · rw [hs1, hs2, sqlUpdateSamples_idem]
  · intro d row howner hrow
    -- the subquery of the second call sees the same owner
    have howner2 : (alookup sid
        (sqlUpdateSamples sid label ((set_label sid label db).2.samples))).map
        (fun r => r.device_id) = some d := by
      rw [hs1, sqlUpdateSamples_idem, ← hs1]
      exact howner
    have hdev : (set_label sid label (set_label sid label db).2).2.devices =
        sqlBumpOwner ((alookup sid
            (sqlUpdateSamples sid label ((set_label sid label db).2.samples))).map
          (fun r => r.device_id)) ((set_label sid label db).2.devices) := rfl
    rw [hdev, howner2, alookup_sqlBump, if_pos rfl, hrow]
    rfl

/-- C6 counterexample: registering version `v1`, which is already present
in the registry, succeeds (the entry is silently overwritten), so the
claimed version-exists failure does not exist. -/
theorem register_model_existing_version_cex :
    (alookup "v1" dmTwoF.registry).isSome = true ∧
    (register_model hashF 5 fsF "artifact.tflite" "v1" 0 none dmTwoF).isOk = true ∧
    ((register_model hashF 5 fsF "artifact.tflite" "v1" 0 none
        dmTwoF).toOption.map (fun r => r.1.version)) = some "v1" :=
  ⟨rfl, rfl, rfl⟩

/-- C6 amended: `register_model` fails exactly when the source artifact is
missing; an already-registered version is silently overwritten.  On success
it copies the artifact into the managed path, hashes the copied content,
stores the entry under the version and persists the registry document. -/
theorem register_model_amended (hash : List Nat → String) (now : Nat)
    (fs : FileSys) (model_path version : String) (accuracy : ℚ)
    (metadata : Option (List (String × String))) (s : DM) :
    (alookup model_path fs = none →
      register_model hash now fs model_path version accuracy metadata s =
        .error ("Model not found: " ++ model_path)) ∧
    (∀ content, alookup model_path fs = some content →
      ∃ model fs2 s2,
        register_model hash now fs model_path version accuracy metadata s =
          .ok (model, fs2, s2) ∧
        model.hash_sha256 = hash content ∧
        model.size_bytes = content.length ∧
        model.is_production = false ∧
        alookup (s.models_dir ++ "/model_" ++ version ++ ".tflite") fs2 =
          some content ∧
        alookup version s2.registry = some model ∧
        s2.saved = some (s2.registry, s.production_version) ∧
        s2.production_version = s.production_version) := by
  constructor
  · intro h
    simp [register_model, h]
  · intro content h
    have hred : register_model hash now fs model_path version accuracy metadata s =
        .ok (⟨version, s.models_dir ++ "/model_" ++ version ++ ".tflite",
              content.length, hash content, now, none, accuracy, false, metadata⟩,
             aput (s.models_dir ++ "/model_" ++ version ++ ".tflite") content fs,
             { s with
               registry := aput version
                 ⟨version, s.models_dir ++ "/model_" ++ version ++ ".tflite",
                  content.length, hash content, now, none, accuracy, false, metadata⟩
                 s.registry,
               saved := some (aput version
                 ⟨version, s.models_dir ++ "/model_" ++ version ++ ".tflite",
                  content.length, hash content, now, none, accuracy, false, metadata⟩
                 s.registry, s.production_version) }) := by
      simp [register_model, h]
    exact ⟨_, _, _, hred, rfl, rfl, rfl, by rw [alookup_aput, if_pos rfl],
      by rw [alookup_aput, if_pos rfl], rfl, rfl⟩

/-- C6 witness: the amended statement at the concrete fixture (the artifact
exists; `v1` is already registered and still gets overwritten). -/
theorem register_model_amended_witness :
    ∃ model fs2 s2,
      register_model hashF 5 fsF "artifact.tflite" "v1" 0 none dmTwoF =
        .ok (model, fs2, s2) ∧
      model.hash_sha256 = hashF [7, 8, 9] ∧
      model.size_bytes = ([7, 8, 9] : List Nat).length ∧
      model.is_production = false ∧
      alookup (dmTwoF.models_dir ++ "/model_" ++ "v1" ++ ".tflite") fs2 =
        some [7, 8, 9] ∧
      alookup "v1" s2.registry = some model ∧
      s2.saved = some (s2.registry, dmTwoF.production_version) ∧
      s2.production_version = dmTwoF.production_version :=
  (register_model_amended hashF 5 fsF "artifact.tflite" "v1" 0 none dmTwoF).2
    [7, 8, 9] rfl

/-- C8 counterexample: a task in the terminal SKIPPED state is flipped to
LABELED by a later `submit_label` call, so the claim that no transition
leaves SKIPPED (or DISPUTED) is false on the code. -/
theorem status_machine_cex :
    (alookup 1 lsSkippedF.tasks).map LabelingTask.status =
      some LabelingStatus.SKIPPED ∧
    (alookup 1 (submit_label 5 1 2 none 1 "n" lsSkippedF).2.tasks).map
      LabelingTask.status = some LabelingStatus.LABELED :=
  ⟨rfl, rfl⟩

/-- C10: `get_next_task` with no labeler id is a pure read — it returns the
selected pending task but the service state (hence every task's status,
assignee and assignment time) is unchanged; a task is claimed only when a
labeler id is supplied. -/
theorem next_task_pure_read (now : Nat) (s : LState) :
    (get_next_task none now s).2 = s ∧
    (get_next_task none now s).1 = selectNext (pendings s) := by
  cases h : selectNext (pendings s) with
  | none => simp [get_next_task, h]
  | some c => simp [get_next_task, h, optTruthy]

/-- C4: `should_retrain` is false whenever the current job is non-terminal;
otherwise it is true exactly when all three policy thresholds hold on the
collector's statistics summary: total ≥ `min_samples_for_retraining`,
labeling rate ≥ the labeled-ratio threshold, and (total − used) ≥
`min_new_samples`. -/
theorem should_retrain_rule (cfg : RetrainingConfig) (s : OrchState)
    (db : CollectorDB) :
    ((∃ j, s.current_job = some j ∧ j.nonTerminal) →
      should_retrain cfg s db = false) ∧
    ((∀ j, s.current_job = some j → ¬ j.nonTerminal) →
      (should_retrain cfg s db = true ↔
        (((get_stats_summary db).total_samples : Int) ≥
            cfg.min_samples_for_retraining ∧
         (get_stats_summary db).labeling_rate ≥ cfg.min_labeled_rate ∧
         ((get_stats_summary db).total_samples : Int) -
            ((get_stats_summary db).used_for_training : Int) ≥
            cfg.min_new_samples))) := by
  constructor
  · rintro ⟨j, hj, hnt⟩
    simp [should_retrain, hj, hnt]
  · intro hterm
    have hnt : (match s.current_job with
        | some j => decide j.nonTerminal
        | none => false) = false := by
      cases hc : s.current_job with
      | none => rfl
      | some j => simpa using hterm j hc
    rw [show should_retrain cfg s db =
        (if (match s.current_job with
             | some j => decide j.nonTerminal
             | none => false) = true then false
         else if ((get_stats_summary db).total_samples : Int) <
             cfg.min_samples_for_retraining then false
         else if (get_stats_summary db).labeling_rate <
             cfg.min_labeled_rate then false
         else if ((get_stats_summary db).total_samples : Int) -
             ((get_stats_summary db).used_for_training : Int) <
             cfg.min_new_samples then false
         else true) from rfl]
    rw [hnt]
    simp only [Bool.false_eq_true, if_false]
    by_cases h1 : ((get_stats_summary db).total_samples : Int) <
        cfg.min_samples_for_retraining
    · simp only [h1, if_true]
      constructor
      · intro hf; exact absurd hf (by simp)
      · rintro ⟨ha, _, _⟩; omega
    · by_cases h2 : (get_stats_summary db).labeling_rate < cfg.min_labeled_rate
      · simp only [h1, if_false, h2, if_true]
        constructor
        · intro hf; exact absurd hf (by simp)
        · rintro ⟨_, hb, _⟩; exact absurd h2 (not_lt.mpr hb)
      · by_cases h3 : ((get_stats_summary db).total_samples : Int) -
            ((get_stats_summary db).used_for_training : Int) <
            cfg.min_new_samples
        · simp only [h1, if_false, h2, h3, if_true]
          constructor
          · intro hf; exact absurd hf (by simp)
          · rintro ⟨_, _, hc⟩; omega
        · simp only [h1, if_false, h2, h3]
          constructor
          · intro _
            exact ⟨not_lt.mp h1, not_lt.mp h2, not_lt.mp h3⟩
          · intro _; trivial

/-- C4 witness: the rule applied at the busy fixture (false while a job is
in flight) and at the idle fixture over `dbF` with the permissive policy
(all thresholds met, so true). -/
theorem should_retrain_rule_witness :
    should_retrain cfgF orchBusyF dbF = false ∧
    should_retrain cfgF orchIdleF dbF = true := by
  constructor
  · exact (should_retrain_rule cfgF orchBusyF dbF).1 ⟨jobTrainingF, rfl, by decide⟩
  · refine ((should_retrain_rule cfgF orchIdleF dbF).2 ?_).mpr ⟨by decide, ?_, by decide⟩
    · intro j hj
      exact absurd hj (by simp [orchIdleF])
    · show cfgF.min_labeled_rate ≤ (get_stats_summary dbF).labeling_rate
      simp [cfgF, get_stats_summary, dbF, sampleRowF]

/-- C7 witness: the amended statement at the one-sample fixture — the
samples table is stable under the repeated call while `dev-a`'s counter
goes from 1 to 2. -/
theorem set_label_amended_witness :
    ((set_label 1 2 (set_label 1 2 dbF).2).2.samples =
      (set_label 1 2 dbF).2.samples) ∧
    alookup "dev-a" (set_label 1 2 (set_label 1 2 dbF).2).2.devices =
      some { total_samples := 1, labeled_samples := 2, last_seen := 0,
             model_version := none } := by
  refine ⟨(set_label_amended dbF 1 2).1, ?_⟩
  exact (set_label_amended dbF 1 2).2 "dev-a"
    { total_samples := 1, labeled_samples := 1, last_seen := 0,
      model_version := none } rfl rfl

/-- C8 amended: `submit_label`, `skip_task` and `dispute_label` set the
status of any existing task unconditionally (to LABELED, SKIPPED and
DISPUTED respectively), regardless of the task's current status — so
transitions out of DISPUTED and SKIPPED are possible; only `get_next_task`
preserves a DISPUTED or SKIPPED task (it claims only a PENDING task). -/
theorem status_machine_amended (s : LState) (tid : Nat) (t : LabelingTask)
    (now : Nat) (alab lab : Option String) (lbl : Int) (conf : ℚ)
    (nts sreason dreason : String)
    (hW : TasksWF s.tasks)
    (ht : alookup tid s.tasks = some t)
    (hst : t.status = LabelingStatus.DISPUTED ∨
           t.status = LabelingStatus.SKIPPED) :
    alookup tid ((get_next_task alab now s).2.tasks) = some t ∧
    (alookup tid ((submit_label now tid lbl lab conf nts s).2.tasks)).map
      LabelingTask.status = some LabelingStatus.LABELED ∧
    (alookup tid ((skip_task now tid sreason s).2.tasks)).map
      LabelingTask.status = some LabelingStatus.SKIPPED ∧
    (alookup tid ((dispute_label tid dreason s).2.tasks)).map
      LabelingTask.status = some LabelingStatus.DISPUTED := by
  obtain ⟨hWk, hWnd⟩ := hW
  refine ⟨?_, ?_, ?_, ?_⟩
  · -- get_next_task claims only the selected PENDING task, whose id differs
    cases hsel : selectNext (pendings s) with
    | none => simp [get_next_task, hsel, ht]
    | some c =>
        have hcmem := (selectNext_mem hsel).1
        simp only [pendings, List.mem_filter] at hcmem
        obtain ⟨hcv, hcp⟩ := hcmem
        have hcp : c.status = LabelingStatus.PENDING := by simpa using hcp
        obtain ⟨kv, hkv, hsnd⟩ := List.mem_map.mp hcv
        have hck : c.task_id = kv.1 := by rw [← hsnd]; exact hWk kv hkv
        have hne : ¬ tid = c.task_id := by
          intro he
          have : alookup tid s.tasks = some c := by
            rw [he, hck]
            exact alookup_of_mem hWnd (by rw [← hsnd]; simpa using hkv)
          rw [ht] at this
          injection this with heq
          rw [← heq] at hcp
          rcases hst with h | h <;> rw [h] at hcp <;> exact absurd hcp (by simp)
        by_cases hot : optTruthy alab
        · simp [get_next_task, hsel, hot, alookup_aupd, hne, ht]
        · simp [get_next_task, hsel, hot, ht]
  · simp only [submit_label, ht]
    cases hcol : s.collector with
    | none =>
        by_cases hot2 : optTruthy (if optTruthy lab then lab else t.assigned_to) <;>
          simp [hcol, hot2, update_labeler_stats, alookup_aupd, ht]
    | some db =>
        by_cases hot2 : optTruthy (if optTruthy lab then lab else t.assigned_to) <;>
          simp [hcol, hot2, update_labeler_stats, alookup_aupd, ht]
  · simp [skip_task, ht, alookup_aupd]
  · simp [dispute_label, ht, alookup_aupd]

/-- C8 witness: the amended statement at the skipped-task fixture. -/
theorem status_machine_amended_witness :
    alookup 1 ((get_next_task (some "alice") 6 lsSkippedF).2.tasks) =
      some taskSkippedF ∧
    (alookup 1 ((submit_label 6 1 2 (some "alice") 1 "n" lsSkippedF).2.tasks)).map
      LabelingTask.status = some LabelingStatus.LABELED ∧
    (alookup 1 ((skip_task 6 1 "r" lsSkippedF).2.tasks)).map
      LabelingTask.status = some LabelingStatus.SKIPPED ∧
    (alookup 1 ((dispute_label 1 "d" lsSkippedF).2.tasks)).map
      LabelingTask.status = some LabelingStatus.DISPUTED :=
  status_machine_amended lsSkippedF 1 taskSkippedF 6 (some "alice") (some "alice")
    2 1 "n" "r" "d" ⟨by decide, by decide⟩ rfl (Or.inr rfl)

/-- C9: whenever a PENDING task exists, `get_next_task` returns a task that
corresponds to a PENDING task of maximal priority (URGENT > HIGH > MEDIUM >
LOW), and within the maximal priority band its `created_at` is the
earliest (FIFO); the returned data keeps that task's id, priority and
creation time (with a labeler id it is returned in its claimed form). -/
theorem next_task_priority_order (s : LState) (lab : Option String) (now : Nat)
    (h : ∃ t ∈ avals s.tasks, t.status = LabelingStatus.PENDING) :
    ∃ r t, (get_next_task lab now s).1 = some r ∧
      t ∈ avals s.tasks ∧ t.status = LabelingStatus.PENDING ∧
      r.task_id = t.task_id ∧ r.priority = t.priority ∧
      r.created_at = t.created_at ∧
      ∀ u ∈ avals s.tasks, u.status = LabelingStatus.PENDING →
        (u.priority.val ≤ t.priority.val ∧
          (u.priority.val = t.priority.val → t.created_at ≤ u.created_at)) := by
  obtain ⟨t0, ht0, hp0⟩ := h
  have hne : pendings s ≠ [] := by
    intro he
    have hmem : t0 ∈ pendings s := by
      simp [pendings, List.mem_filter, ht0, hp0]
    rw [he] at hmem
    exact absurd hmem (by simp)
  obtain ⟨c, hc, hcmem, hall⟩ := selectNext_spec hne
  have hcin : c ∈ avals s.tasks ∧ c.status = LabelingStatus.PENDING := by
    have := hcmem
    simp only [pendings, List.mem_filter] at this
    exact ⟨this.1, by simpa using this.2⟩
  have hmax : ∀ u ∈ avals s.tasks, u.status = LabelingStatus.PENDING →
      (u.priority.val ≤ c.priority.val ∧
        (u.priority.val = c.priority.val → c.created_at ≤ u.created_at)) := by
    intro u hu hup
    have humem : u ∈ pendings s := by
      simp [pendings, List.mem_filter, hu, hup]
    have hb := hall u humem
    rw [Bool.eq_false_iff, Ne, beats_iff] at hb
    constructor
    · omega
    · omega
  by_cases hot : optTruthy lab
  · have hr : (get_next_task lab now s).1 =
        some { c with assigned_to := lab, assigned_at := some now,
                      status := LabelingStatus.IN_PROGRESS } := by
      simp [get_next_task, hc, hot]
    exact ⟨_, c, hr, hcin.1, hcin.2, rfl, rfl, rfl, hmax⟩
  · have hr : (get_next_task lab now s).1 = some c := by
      simp [get_next_task, hc, hot]
    exact ⟨c, c, hr, hcin.1, hcin.2, rfl, rfl, rfl, hmax⟩

/-- C9 witness: the selection property at the single-pending-task fixture. -/
theorem next_task_priority_order_witness :
    ∃ r t, (get_next_task none 9 lsPendingF).1 = some r ∧
      t ∈ avals lsPendingF.tasks ∧ t.status = LabelingStatus.PENDING ∧
      r.task_id = t.task_id ∧ r.priority = t.priority ∧
      r.created_at = t.created_at ∧
      ∀ u ∈ avals lsPendingF.tasks, u.status = LabelingStatus.PENDING →
        (u.priority.val ≤ t.priority.val ∧
          (u.priority.val = t.priority.val → t.created_at ≤ u.created_at)) :=
  next_task_priority_order lsPendingF none 9
    ⟨taskPendingF, List.mem_singleton_self _, rfl⟩

/-- C3: deploying `v2` to three devices and reporting COMPLETED for two of
them and FAILED for one yields `success_count = 2`, `failure_count = 1` and
job status COMPLETED; and in general, whenever a rolling-out job's device
set has no pending device left, the completion check sets the job status to
COMPLETED (never FAILED) with the success/failure counts as computed over
the device set, regardless of how many devices failed. -/
theorem rollout_accounting :
    ((alookup "deploy_1" dmRolloutDoneF.deployments).map
        (fun j => (j.success_count, j.failure_count, j.status)) =
      some (2, 1, DeploymentStatus.COMPLETED)) ∧
    (∀ (now : Nat) (devmap : List (String × DeviceDeployment))
        (j : DeploymentJob),
      j.status = DeploymentStatus.ROLLING_OUT →
      (countStatuses devmap (targetsOf devmap j)).2.2 = 0 →
      ((checkJob now devmap j).status = DeploymentStatus.COMPLETED ∧
       (checkJob now devmap j).success_count =
         (countStatuses devmap (targetsOf devmap j)).1 ∧
       (checkJob now devmap j).failure_count =
         (countStatuses devmap (targetsOf devmap j)).2.1)) := by
  constructor
  · rfl
  · intro now devmap j hR hp
    simp [checkJob, hR, hp]

/-- C3 witness: the general completion rule applied to a one-device job
whose only device has resolved. -/
theorem rollout_accounting_witness :
    (checkJob 9 [("d", devDoneF)] jobRollingF).status =
      DeploymentStatus.COMPLETED ∧
    (checkJob 9 [("d", devDoneF)] jobRollingF).success_count =
      (countStatuses [("d", devDoneF)]
        (targetsOf [("d", devDoneF)] jobRollingF)).1 ∧
    (checkJob 9 [("d", devDoneF)] jobRollingF).failure_count =
      (countStatuses [("d", devDoneF)]
        (targetsOf [("d", devDoneF)] jobRollingF)).2.1 :=
  rollout_accounting.2 9 [("d", devDoneF)] jobRollingF rfl (by decide)

/-- C2 counterexample: a state reachable by the public operations alone
(register `""`, deploy `""`, register `"v2"`, deploy `"v2"`) carries two
registry entries with `is_production = true`, because `_set_production`'s
`if self.production_version and ...` guard treats the empty-string
production version as falsy and never demotes it — so the claimed
at-most-one-production invariant is false on the code. -/
theorem two_production_versions_cex :
    Reach dmDoubleProdF ∧ countProd dmDoubleProdF.registry = 2 := by
  constructor
  · exact Reach.deploy (Reach.register (Reach.deploy (Reach.register
      (Reach.init "m" false) hashF 1 fsF "artifact.tflite" "" 0 none)
      "" none 2) hashF 3 fsF "artifact.tflite" "v2" 0 none) "v2" none 4
  · rfl

/-- C2 amended: in every registry state reachable by the public operations,
at most one registry entry with a *non-empty* version key has
`is_production = true`; a second promoted entry can persist only at the
empty-string version, which the demotion guard's string-truthiness skips.
A successful `deploy_model` of a different version demotes the previous
production entry in the same operation whenever the previous production
version is non-empty, and promotes the new version. -/
theorem production_at_most_one_amended :
    (∀ s : DM, Reach s → countProdNE s.registry ≤ 1) ∧
    (∀ (s : DM) (version : String) (target_devices : Option (List String))
        (now : Nat) (id : String) (s2 : DM) (p : String),
      deploy_model version target_devices now s = .ok (id, s2) →
      s.production_version = some p → p ≠ "" → p ≠ version →
      (∀ m', alookup p s2.registry = some m' → m'.is_production = false) ∧
      (∃ m, alookup version s2.registry = some m ∧ m.is_production = true) ∧
      s2.production_version = some version) := by
  constructor
  · intro s h
    exact countProdNE_le_one (prodInv_reach h).1 (prodInv_reach h).2
  · intro s version target_devices now id s2 p hd hp hpne hpv
    have hc : (alookup version s.registry).isSome := by
      by_contra hc
      simp [deploy_model, hc] at hd
    have hd2 : deploy_model version target_devices now s =
        .ok ((newDeployJob version target_devices now).deployment_id,
          start_rollout now (newDeployJob version target_devices now)
            (set_production now version { s with
              deployments := aput
                (newDeployJob version target_devices now).deployment_id
                (newDeployJob version target_devices now) s.deployments })) := by
      simp [deploy_model, hc]
    rw [hd2] at hd
    have hs2 : s2 = start_rollout now (newDeployJob version target_devices now)
        (set_production now version { s with
          deployments := aput
            (newDeployJob version target_devices now).deployment_id
            (newDeployJob version target_devices now) s.deployments }) := by
      injection hd with hd3
      injection hd3 with hd4 hd5
      exact hd5.symm
    have hreg : s2.registry =
        aupd version
          (fun m => { m with is_production := true, deployed_at := some now })
          (if (alookup p s.registry).isSome = true
           then aupd p (fun m => { m with is_production := false }) s.registry
           else s.registry) := by
      rw [hs2, (start_rollout_fields _ _ _).1]
      simp [set_production, hp, hpne]
    have hprod2 : s2.production_version = some version := by
      rw [hs2, (start_rollout_fields _ _ _).2]
      simp [set_production]
    refine ⟨?_, ?_, hprod2⟩
    · intro m' hm'
      rw [hreg, alookup_aupd, if_neg hpv] at hm'
      by_cases hq : (alookup p s.registry).isSome = true
      · rw [if_pos hq, alookup_aupd, if_pos rfl] at hm'
        obtain ⟨m0, hm0, hm1⟩ := Option.map_eq_some'.mp hm'
        rw [← hm1]
      · rw [if_neg hq] at hm'
        rw [hm'] at hq
        exact absurd rfl hq
    · obtain ⟨m0, hm0⟩ := Option.isSome_iff_exists.mp hc
      refine ⟨{ m0 with is_production := true, deployed_at := some now }, ?_, rfl⟩
      rw [hreg, alookup_aupd, if_pos rfl]
      by_cases hq : (alookup p s.registry).isSome = true
      · rw [if_pos hq, alookup_aupd, if_neg (Ne.symm hpv), hm0]
        rfl
      · rw [if_neg hq, hm0]
        rfl

/-- C2 witness: the amended invariant at the initial state, and the
demote-and-promote behavior of a concrete deploy of `v2` over a registry
whose (non-empty) production version is `v1`. -/
theorem production_at_most_one_amended_witness :
    countProdNE (dmInit "./models" true).registry ≤ 1 ∧
    ((∀ m', alookup "v1" dmTwoDeployedF.registry = some m' →
        m'.is_production = false) ∧
     (∃ m, alookup "v2" dmTwoDeployedF.registry = some m ∧
        m.is_production = true) ∧
     dmTwoDeployedF.production_version = some "v2") := by
  constructor
  · exact production_at_most_one_amended.1 _ (Reach.init "./models" true)
  · exact production_at_most_one_amended.2 dmTwoF "v2" none 3 "deploy_3"
      dmTwoDeployedF "v1" (by rfl) rfl (by decide) (by decide)

end VMM
